import Mathlib

/-!
Verification of the DOMP reference implementation (Python) against its
natural-language specification.  The Python modules `domp/crypto.py`,
`domp/events.py`, `domp/lightning.py`, `domp/validation.py` and
`domp/reputation.py` are shallowly embedded below: pure functions become
Lean functions, the mutable manager objects become explicit state passing,
raising `ValidationError` becomes `Except String`, and Python integers
become `Nat`/`Int`.  External collaborators (the secp256k1 Schnorr
primitive, the `jsonschema` library) are parameters of the embedding.
-/

set_option maxRecDepth 10000

namespace Domp

/-! ## SHA-256 (embedding of Python's `hashlib.sha256`, FIPS 180-4)

`compute_event_id` hashes the UTF-8 bytes of the canonical serialization
with SHA-256 and returns the lowercase hex digest.  The hash itself is the
standard algorithm, embedded here concretely over byte lists so that ids
of concrete events can be evaluated inside proofs. -/

/-- 32-bit right rotation, values kept below `2 ^ 32`. -/
def rotr (n x : Nat) : Nat := ((x >>> n) ||| (x <<< (32 - n))) &&& 0xffffffff

/-- SHA-256 round constants (FIPS 180-4 §4.2.2, written in decimal). -/
def shaK : List Nat :=
  [1116352408, 1899447441, 3049323471, 3921009573, 961987163, 1508970993,
   2453635748, 2870763221, 3624381080, 310598401, 607225278, 1426881987,
   1925078388, 2162078206, 2614888103, 3248222580, 3835390401, 4022224774,
   264347078, 604807628, 770255983, 1249150122, 1555081692, 1996064986,
   2554220882, 2821834349, 2952996808, 3210313671, 3336571891, 3584528711,
   113926993, 338241895, 666307205, 773529912, 1294757372, 1396182291,
   1695183700, 1986661051, 2177026350, 2456956037, 2730485921, 2820302411,
   3259730800, 3345764771, 3516065817, 3600352804, 4094571909, 275423344,
   430227734, 506948616, 659060556, 883997877, 958139571, 1322822218,
   1537002063, 1747873779, 1955562222, 2024104815, 2227730452, 2361852424,
   2428436474, 2756734187, 3204031479, 3329325298]

/-- SHA-256 initial hash state (FIPS 180-4 §5.3.3, written in decimal). -/
def shaH0 : List Nat :=
  [1779033703, 3144134277, 1013904242, 2773480762,
   1359893119, 2600822924, 528734635, 1541459225]

/-- `n` bytes of `v`, big-endian. -/
def natToBytesBE : Nat → Nat → List Nat
  | 0, _ => []
  | n + 1, v => natToBytesBE n (v >>> 8) ++ [v &&& 0xff]

/-- SHA-256 message padding: `0x80`, zeros, 8-byte big-endian bit length. -/
def shaPad (msg : List Nat) : List Nat :=
  msg ++ [0x80] ++ List.replicate ((64 - (msg.length + 9) % 64) % 64) 0
      ++ natToBytesBE 8 (msg.length * 8)

/-- Big-endian 32-bit words from bytes. -/
def bytesToWords : List Nat → List Nat
  | a :: b :: c :: d :: rest =>
      ((((a <<< 8) ||| b) <<< 8 ||| c) <<< 8 ||| d) :: bytesToWords rest
  | _ => []

/-- Small sigma functions of the message schedule. -/
def shaS0 (x : Nat) : Nat := (rotr 7 x) ^^^ (rotr 18 x) ^^^ (x >>> 3)

def shaS1 (x : Nat) : Nat := (rotr 17 x) ^^^ (rotr 19 x) ^^^ (x >>> 10)

/-- Extend the 16-word schedule by `n` more words. -/
def shaExtend : Nat → List Nat → List Nat
  | 0, ws => ws
  | n + 1, ws =>
      let l := ws.length
      let w := (ws.getD (l - 16) 0 + shaS0 (ws.getD (l - 15) 0)
                 + ws.getD (l - 7) 0 + shaS1 (ws.getD (l - 2) 0)) % 4294967296
      shaExtend n (ws ++ [w])

/-- Big sigma functions of the compression. -/
def shaB0 (x : Nat) : Nat := (rotr 2 x) ^^^ (rotr 13 x) ^^^ (rotr 22 x)

def shaB1 (x : Nat) : Nat := (rotr 6 x) ^^^ (rotr 11 x) ^^^ (rotr 25 x)

def shaCh (x y z : Nat) : Nat := (x &&& y) ^^^ ((x ^^^ 0xffffffff) &&& z)

def shaMaj (x y z : Nat) : Nat := (x &&& y) ^^^ (x &&& z) ^^^ (y &&& z)

/-- One compression pass over the `(constant, scheduled word)` pairs. -/
def shaRounds : List (Nat × Nat) → List Nat → List Nat
  | [], st => st
  | (kv, wv) :: rest, [a, b, c, d, e, f, g, h] =>
      let t1 := (h + shaB1 e + shaCh e f g + kv + wv) % 4294967296
      let t2 := (shaB0 a + shaMaj a b c) % 4294967296
      shaRounds rest [(t1 + t2) % 4294967296, a, b, c, (d + t1) % 4294967296, e, f, g]
  | _ :: _, st => st

/-- Compress one 64-byte block into the running state. -/
def shaBlock (st : List Nat) (block : List Nat) : List Nat :=
  let ws := shaExtend 48 (bytesToWords block)
  let out := shaRounds (shaK.zip ws) st
  List.zipWith (fun x y => (x + y) % 4294967296) st out

/-- Split into 64-byte chunks (`fuel` bounds the recursion by the length). -/
def chunks64 : Nat → List Nat → List (List Nat)
  | 0, _ => []
  | _ + 1, [] => []
  | fuel + 1, l => l.take 64 :: chunks64 fuel (l.drop 64)

/-- SHA-256 state after absorbing the whole (padded) message. -/
def shaFinal (msg : List Nat) : List Nat :=
  (chunks64 (shaPad msg).length (shaPad msg)).foldl shaBlock shaH0

/-- Lowercase hex digit. -/
def hexChar (n : Nat) : Char :=
  if n < 10 then Char.ofNat (48 + n) else Char.ofNat (87 + n)

/-- Eight lowercase hex digits of a 32-bit word. -/
def wordHex (w : Nat) : List Char :=
  [hexChar ((w >>> 28) &&& 15), hexChar ((w >>> 24) &&& 15),
   hexChar ((w >>> 20) &&& 15), hexChar ((w >>> 16) &&& 15),
   hexChar ((w >>> 12) &&& 15), hexChar ((w >>> 8) &&& 15),
   hexChar ((w >>> 4) &&& 15), hexChar (w &&& 15)]

/-- SHA-256 lowercase hex digest of a byte list (`hashlib.sha256(..).hexdigest()`). -/
def sha256Hex (msg : List Nat) : String :=
  String.mk ((shaFinal msg).map wordHex).flatten

/-! ## Canonical event serialization (`crypto.compute_event_id`)

`compute_event_id` serializes `[0, pubkey, created_at, kind, tags, content]`
with `json.dumps(..., separators=(',', ':'), sort_keys=True)` (key sorting is
a no-op on this positional array) and hashes the UTF-8 bytes.  The JSON
string escaping below is `json.dumps`'s default `ensure_ascii=True` form. -/

/-- UTF-8 bytes of one character. -/
def utf8Char (c : Char) : List Nat :=
  let n := c.toNat
  if n < 0x80 then [n]
  else if n < 0x800 then [0xc0 ||| (n >>> 6), 0x80 ||| (n &&& 0x3f)]
  else if n < 0x10000 then
    [0xe0 ||| (n >>> 12), 0x80 ||| ((n >>> 6) &&& 0x3f), 0x80 ||| (n &&& 0x3f)]
  else
    [0xf0 ||| (n >>> 18), 0x80 ||| ((n >>> 12) &&& 0x3f),
     0x80 ||| ((n >>> 6) &&& 0x3f), 0x80 ||| (n &&& 0x3f)]

/-- UTF-8 encoding of a string (`str.encode("utf-8")`). -/
def utf8Encode (s : String) : List Nat := (s.data.map utf8Char).flatten

/-- Four lowercase hex digits. -/
def hex4 (n : Nat) : List Char :=
  [hexChar ((n >>> 12) &&& 15), hexChar ((n >>> 8) &&& 15),
   hexChar ((n >>> 4) &&& 15), hexChar (n &&& 15)]

/-- `json.dumps` escaping of one character (default `ensure_ascii=True`):
short escapes for the two-character forms, `\uXXXX` for every character
outside `0x20`–`0x7e`, surrogate pairs beyond the basic plane. -/
def jsonEscChar (c : Char) : List Char :=
  if c = '"' then ['\\', '"']
  else if c = '\\' then ['\\', '\\']
  else if c.toNat = 10 then ['\\', 'n']
  else if c.toNat = 13 then ['\\', 'r']
  else if c.toNat = 9 then ['\\', 't']
  else if c.toNat = 8 then ['\\', 'b']
  else if c.toNat = 12 then ['\\', 'f']
  else if 0x20 ≤ c.toNat && c.toNat ≤ 0x7e then [c]
  else if c.toNat < 0x10000 then '\\' :: 'u' :: hex4 c.toNat
  else
    let n := c.toNat - 0x10000
    ('\\' :: 'u' :: hex4 (0xd800 + (n >>> 10)))
      ++ ('\\' :: 'u' :: hex4 (0xdc00 + (n &&& 0x3ff)))

/-- JSON serialization of a string literal. -/
def jsonStr (s : String) : String :=
  "\"" ++ String.mk (s.data.map jsonEscChar).flatten ++ "\""

/-- JSON serialization of one tag (an array of strings). -/
def jsonTag (t : List String) : String :=
  "[" ++ String.intercalate "," (t.map jsonStr) ++ "]"

/-- JSON serialization of the tag list. -/
def jsonTags (tags : List (List String)) : String :=
  "[" ++ String.intercalate "," (tags.map jsonTag) ++ "]"

/-- The signable fields of an event: what `compute_event_id` receives after
`id` and `sig` are popped from the event dict. -/
structure EventFields where
  pubkey : String
  created_at : Int
  kind : Int
  tags : List (List String)
  content : String
deriving DecidableEq, Repr

/-- The compact serialization `[0,pubkey,created_at,kind,tags,content]`. -/
def serializeEvent (f : EventFields) : String :=
  "[0," ++ jsonStr f.pubkey ++ "," ++ toString f.created_at ++ ","
    ++ toString f.kind ++ "," ++ jsonTags f.tags ++ "," ++ jsonStr f.content ++ "]"

/-- `crypto.compute_event_id`: SHA-256 lowercase hex digest of the UTF-8
bytes of the canonical serialization. -/
def compute_event_id (f : EventFields) : String :=
  sha256Hex (utf8Encode (serializeEvent f))

/-! ## Events and signature verification (`events.Event`, `crypto.verify_event`) -/

/-- A complete DOMP event, as published. -/
structure Event where
  id : String
  pubkey : String
  created_at : Int
  kind : Int
  tags : List (List String)
  content : String
  sig : String
deriving DecidableEq, Repr

/-- The signable fields of an event (the dict with `id` and `sig` popped). -/
def Event.fields (e : Event) : EventFields :=
  ⟨e.pubkey, e.created_at, e.kind, e.tags, e.content⟩

/-- `crypto.verify_event`'s PoW detection: some tag has at least two entries,
name `anti_spam_proof` and kind `pow`. -/
def hasPowTag (tags : List (List String)) : Bool :=
  tags.any fun t =>
    decide (2 ≤ t.length) && (t.getD 0 "" == "anti_spam_proof") && (t.getD 1 "" == "pow")

/-- `crypto.verify_event`.  The `schnorr` parameter models the external
secp256k1 block (lines 124–132: hex decoding of `pubkey`/`id`/`sig`, point
construction and `schnorr_verify`; any exception there yields `false`, which
the parameter absorbs by returning `Bool`).  The id recomputation is skipped
exactly when a PoW anti-spam tag is present. -/
def verify_event (schnorr : String → String → String → Bool) (e : Event) : Bool :=
  if hasPowTag e.tags then schnorr e.id e.sig e.pubkey
  else if compute_event_id e.fields = e.id then schnorr e.id e.sig e.pubkey
  else false

/-! ## Decimal codec (Python's `str` on `int` and `int` on `str`)

The PoW tag stores nonce and difficulty as decimal strings (`str(nonce)`,
`str(difficulty)`); `_validate_pow_proof` reads them back with `int(...)`. -/

/-- The decimal digit character for `n < 10`. -/
def digitChar (n : Nat) : Char := Char.ofNat (48 + n)

/-- Decimal digit characters of `n`, most significant first (`fuel ≥ n + 1`). -/
def natDigits : Nat → Nat → List Char
  | 0, _ => []
  | fuel + 1, n =>
      if n < 10 then [digitChar n]
      else natDigits fuel (n / 10) ++ [digitChar (n % 10)]

/-- Python `str(n)` for a natural number. -/
def natStr (n : Nat) : String := String.mk (natDigits (n + 1) n)

/-- Value of a decimal digit character, if it is one. -/
def digitVal (c : Char) : Option Nat :=
  if 48 ≤ c.toNat && c.toNat ≤ 57 then some (c.toNat - 48) else none

/-- Left fold of decimal digits onto an accumulator; `none` on a non-digit. -/
def parseDigits (acc : Nat) : List Char → Option Nat
  | [] => some acc
  | c :: cs =>
      match digitVal c with
      | some d => parseDigits (acc * 10 + d) cs
      | none => none

/-- Python `int(s)` on a plain (optionally `-`-signed) decimal literal;
other forms are rejected. -/
def pyInt (s : String) : Option Int :=
  match s.data with
  | [] => none
  | '-' :: cs => if cs.isEmpty then none else (parseDigits 0 cs).map (fun n => -(n : Int))
  | cs => (parseDigits 0 cs).map (fun n => (n : Int))

/-! ## Proof-of-work mining (`crypto.generate_pow_nonce` / `generate_pow_event`) -/

/-- Python's `str.startswith`, as a code-point prefix test. -/
def strStartsWith (s p : String) : Bool := p.data.isPrefixOf s.data

/-- The required id target `'0' * (difficulty // 4)`. -/
def powZeros (difficulty : Nat) : String :=
  String.mk (List.replicate (difficulty / 4) '0')

/-- The appended anti-spam tag for one attempt. -/
def powTag (nonce difficulty : Nat) : List String :=
  ["anti_spam_proof", "pow", natStr nonce, natStr difficulty]

/-- The id of the event with the PoW tag for `nonce` appended. -/
def powAttemptId (f : EventFields) (difficulty nonce : Nat) : String :=
  compute_event_id { f with tags := f.tags ++ [powTag nonce difficulty] }

/-- Whether the attempt for `nonce` meets the difficulty target. -/
def powOk (f : EventFields) (difficulty nonce : Nat) : Bool :=
  strStartsWith (powAttemptId f difficulty nonce) (powZeros difficulty)

/-- The mining loop: try `nonce`, return on success, else advance; `fuel`
bounds the remaining attempts (the source raises once the counter passes
10,000,000). -/
def powLoop (f : EventFields) (difficulty : Nat) : Nat → Nat → Option (String × String)
  | _, 0 => none
  | nonce, fuel + 1 =>
      if powOk f difficulty nonce then
        some (powAttemptId f difficulty nonce, natStr nonce)
      else powLoop f difficulty (nonce + 1) fuel

/-- `crypto.generate_pow_nonce`: nonces 0, 1, 2, … are tried in order; the
`RuntimeError` raised when the counter passes 10,000,000 is `none` (so
exactly the nonces 0 … 10,000,000 are attempted). -/
def generate_pow_nonce (f : EventFields) (difficulty : Nat) : Option (String × String) :=
  powLoop f difficulty 0 10000001

/-- `crypto.generate_pow_event`: the same loop, additionally returning the
complete event fields with the PoW tag appended. -/
def generate_pow_event (f : EventFields) (difficulty : Nat) :
    Option (String × String × EventFields) :=
  (generate_pow_nonce f difficulty).map fun r =>
    (r.1, r.2, { f with tags := f.tags ++ [["anti_spam_proof", "pow", r.2, natStr difficulty]] })

/-- `validation._validate_pow_proof`: requires nonce and difficulty present,
parses the difficulty, and checks the *stored* id against
`'0' * (difficulty // 4)` (Python floor division; a negative count repeats
zero times).  Only the event's `id` field is consulted. -/
def powProofCheck (eventId : String) (tag : List String) : Except String Unit :=
  if tag.length < 4 then .error "PoW tag missing nonce or difficulty"
  else
    match pyInt (tag.getD 3 "") with
    | none => .error "PoW difficulty must be integer"
    | some d =>
        if strStartsWith eventId (String.mk (List.replicate ((d.fdiv 4).toNat) '0')) then .ok ()
        else .error "PoW does not meet difficulty"

/-! ## HTLC escrow state machine (`lightning.LightningEscrowManager`)

The manager's `escrows` dict becomes an association list, and each mutating
method becomes a function returning its result together with the new
manager state.  `create_escrow` draws randomness and wall-clock time and is
not needed by the claims; the claims quantify over an existing escrow. -/

/-- `lightning.EscrowState`. -/
inductive EscrowState where
  | pending
  | active
  | completed
  | refunded
  | expired
deriving DecidableEq, Repr

/-- `lightning.HTLCEscrow`. -/
structure HTLCEscrow where
  transaction_id : String
  buyer_pubkey : String
  seller_pubkey : String
  purchase_amount_sats : Int
  buyer_collateral_sats : Int
  seller_collateral_sats : Int
  payment_hash : String
  payment_preimage : Option String := none
  timeout_blocks : Int := 144
  state : EscrowState := .pending
  created_at : Int
  expires_at : Int
  buyer_payment_hash : Option String := none
  buyer_collateral_hash : Option String := none
  seller_collateral_hash : Option String := none
deriving DecidableEq, Repr

/-- `lightning.LightningEscrowManager` (its `escrows` dict). -/
structure LightningEscrowManager where
  escrows : List (String × HTLCEscrow)
deriving DecidableEq, Repr

/-- `self.escrows.get(transaction_id)`. -/
def LightningEscrowManager.get (m : LightningEscrowManager) (tid : String) :
    Option HTLCEscrow :=
  (m.escrows.find? (fun p => p.1 == tid)).map Prod.snd

/-- In-place mutation of the escrow stored under `tid`. -/
def LightningEscrowManager.set (m : LightningEscrowManager) (tid : String)
    (e : HTLCEscrow) : LightningEscrowManager :=
  ⟨m.escrows.map fun p => if p.1 == tid then (p.1, e) else p⟩

/-- Python truthiness of a string: empty is falsy. -/
def strTruthy (s : String) : Bool := s ≠ ""

/-- Python truthiness of an optional string: `None` and `""` are falsy. -/
def optTruthy : Option String → Bool
  | none => false
  | some s => s ≠ ""

/-- `LightningEscrowManager.fund_escrow`: stores the buyer payment hash
unconditionally and each collateral hash only when truthy, then activates
the escrow iff the buyer payment hash argument and, for each positive
collateral amount, the corresponding collateral hash argument are truthy.
The current state is never inspected.  Returns whether activation
occurred, with the new manager state. -/
def fund_escrow (m : LightningEscrowManager) (tid : String) (bph : String)
    (bch sch : Option String) : Bool × LightningEscrowManager :=
  match m.get tid with
  | none => (false, m)
  | some e =>
      let e1 := { e with
        buyer_payment_hash := some bph
        buyer_collateral_hash := if optTruthy bch then bch else e.buyer_collateral_hash
        seller_collateral_hash := if optTruthy sch then sch else e.seller_collateral_hash }
      let funded := strTruthy bph
        && (!(decide (0 < e.buyer_collateral_sats)) || optTruthy bch)
        && (!(decide (0 < e.seller_collateral_sats)) || optTruthy sch)
      if funded then (true, m.set tid { e1 with state := .active })
      else (false, m.set tid e1)

/-- `LightningEscrowManager.release_payment`: from `active` only, marks the
escrow `completed` and returns the stored preimage; otherwise returns
`none` and leaves the manager unchanged. -/
def release_payment (m : LightningEscrowManager) (tid : String) :
    Option String × LightningEscrowManager :=
  match m.get tid with
  | none => (none, m)
  | some e =>
      if e.state = .active then
        (e.payment_preimage, m.set tid { e with state := .completed })
      else (none, m)

/-- `LightningEscrowManager.refund_payment`: no state guard beyond
existence. -/
def refund_payment (m : LightningEscrowManager) (tid : String) :
    Bool × LightningEscrowManager :=
  match m.get tid with
  | none => (false, m)
  | some e => (true, m.set tid { e with state := .refunded })

/-! ## Event validation (`validation.py`)

The validators inspect `json.loads(event["content"])`; the embedding
represents that parsed payload directly as a `Json` value (an event whose
content string fails to parse is rejected by the pipeline and is outside
the embedding).  The `jsonschema.validate` call against the loaded schema
set and the cryptographic `verify_event` call are external collaborators,
modelled as boolean parameters; every theorem below quantifies over them.
Raising `ValidationError` (or any exception the pipeline converts into
one) is `Except.error`. -/

/-- A parsed JSON value (numbers restricted to integers, which is all the
protocol content uses). -/
inductive Json where
  | null
  | bool (b : Bool)
  | num (n : Int)
  | str (s : String)
  | arr (elems : List Json)
  | obj (fields : List (String × Json))
deriving Repr

/-- Dictionary lookup: `content[key]` on a parsed object; `none` on a
missing key or a non-object. -/
def Json.lookup : Json → String → Option Json
  | .obj fields, k => (fields.find? (fun p => p.1 == k)).map Prod.snd
  | _, _ => none

/-- Python `len(...)` on a parsed value (`none` models the `TypeError` on
unsized values, which the pipeline converts into a rejection). -/
def Json.length : Json → Option Nat
  | .str s => some s.length
  | .arr xs => some xs.length
  | .obj fs => some fs.length
  | _ => none

/-- An event as the validators see it: the parsed content payload replaces
the raw string (`_validate_event_structure`'s `isinstance(content, str)`
check holds for every representable event). -/
structure EventV where
  id : String
  pubkey : String
  created_at : Int
  kind : Int
  tags : List (List String)
  content : Json
  sig : String

/-- `_validate_event_structure`: the length checks on the hex fields (the
type checks on `created_at`, `kind`, `tags`, `content` hold by
construction here). -/
def structureCheck (e : EventV) : Except String Unit :=
  if e.id.length ≠ 64 then .error "Invalid event ID format"
  else if e.pubkey.length ≠ 64 then .error "Invalid pubkey format"
  else if e.sig.length ≠ 128 then .error "Invalid signature format"
  else .ok ()

/-- The kinds carrying a schema (the embedded fallback set of
`_get_embedded_schemas`; the optional on-disk schema directory is not part
of the sources). -/
def schemaKinds : List Int := [300, 301, 303, 311, 313]

/-- `_validate_event_schema`: unknown kinds are rejected; the
`jsonschema.validate` call is the external parameter `schemaOk`. -/
def schemaCheck (schemaOk : EventV → Bool) (e : EventV) : Except String Unit :=
  if e.kind ∈ schemaKinds then
    if schemaOk e then .ok () else .error "Schema validation failed"
  else .error "Unsupported event kind"

/-- `_validate_product_listing_content`. -/
def listingContentCheck (c : Json) : Except String Unit :=
  if (c.lookup "product_name").isNone then .error "Missing required content field: product_name"
  else if (c.lookup "description").isNone then .error "Missing required content field: description"
  else if (c.lookup "price_satoshis").isNone then .error "Missing required content field: price_satoshis"
  else
    match c.lookup "price_satoshis" with
    | some (.num p) =>
        if p ≤ 0 then .error "Price must be positive"
        else
          match c.lookup "product_name" with
          | some v =>
              match v.length with
              | some l => if 100 < l then .error "Product name too long" else .ok ()
              | none => .error "object of that type has no len"
          | none => .error "Missing required content field: product_name"
    | some _ => .error "not supported between instances"
    | none => .error "Missing required content field: price_satoshis"

/-- `_validate_bid_submission_content`. -/
def bidContentCheck (c : Json) : Except String Unit :=
  if (c.lookup "product_ref").isNone then .error "Missing required content field: product_ref"
  else if (c.lookup "bid_amount_satoshis").isNone then .error "Missing required content field: bid_amount_satoshis"
  else if (c.lookup "buyer_collateral_satoshis").isNone then .error "Missing required content field: buyer_collateral_satoshis"
  else
    match c.lookup "bid_amount_satoshis" with
    | some (.num a) =>
        if a ≤ 0 then .error "Bid amount must be positive"
        else
          match c.lookup "buyer_collateral_satoshis" with
          | some (.num b) =>
              if b < 0 then .error "Collateral cannot be negative" else .ok ()
          | some _ => .error "not supported between instances"
          | none => .error "Missing required content field: buyer_collateral_satoshis"
    | some _ => .error "not supported between instances"
    | none => .error "Missing required content field: bid_amount_satoshis"

/-- `_validate_bid_acceptance_content`. -/
def acceptanceContentCheck (c : Json) : Except String Unit :=
  if (c.lookup "bid_ref").isNone then .error "Missing required content field: bid_ref"
  else if (c.lookup "ln_invoice").isNone then .error "Missing required content field: ln_invoice"
  else
    match c.lookup "ln_invoice" with
    | some (.str s) =>
        if strStartsWith s "lnbc" || strStartsWith s "lntb" || strStartsWith s "lnbcrt" then .ok ()
        else .error "Invalid Lightning invoice format"
    | some _ => .error "has no attribute startswith"
    | none => .error "Missing required content field: ln_invoice"

/-- `_validate_payment_confirmation_content`. -/
def paymentContentCheck (c : Json) : Except String Unit :=
  if (c.lookup "bid_ref").isNone then .error "Missing required content field: bid_ref"
  else if (c.lookup "payment_proof").isNone then .error "Missing required content field: payment_proof"
  else if (c.lookup "payment_method").isNone then .error "Missing required content field: payment_method"
  else
    match c.lookup "payment_method" with
    | some (.str s) =>
        if s = "lightning_htlc" || s = "lightning_keysend" || s = "onchain" then .ok ()
        else .error "Invalid payment method"
    | some _ => .error "Invalid payment method"
    | none => .error "Missing required content field: payment_method"

/-- `_validate_receipt_confirmation_content`. -/
def receiptContentCheck (c : Json) : Except String Unit :=
  if (c.lookup "payment_ref").isNone then .error "Missing required content field: payment_ref"
  else if (c.lookup "status").isNone then .error "Missing required content field: status"
  else
    match c.lookup "status" with
    | some (.str s) =>
        if s = "received" || s = "partially_received" || s = "not_received" || s = "damaged" then
          if s ≠ "received" && (c.lookup "dispute_reason").isNone then
            .error "dispute_reason required for non-received status"
          else .ok ()
        else .error "Invalid status"
    | some _ => .error "Invalid status"
    | none => .error "Missing required content field: status"

/-- `_validate_event_content`: dispatch on the kind (other kinds pass). -/
def contentCheck (e : EventV) : Except String Unit :=
  if e.kind = 300 then listingContentCheck e.content
  else if e.kind = 301 then bidContentCheck e.content
  else if e.kind = 303 then acceptanceContentCheck e.content
  else if e.kind = 311 then paymentContentCheck e.content
  else if e.kind = 313 then receiptContentCheck e.content
  else .ok ()

/-- `_validate_anti_spam`'s tag search: first tag with at least two entries
whose name is `anti_spam_proof`. -/
def findAntiSpamTag (tags : List (List String)) : Option (List String) :=
  tags.find? fun t => decide (2 ≤ t.length) && (t.getD 0 "" == "anti_spam_proof")

/-- `_validate_lightning_proof`. -/
def lnProofCheck (tag : List String) : Except String Unit :=
  if tag.length < 3 then .error "Lightning proof missing payment hash"
  else if (tag.getD 2 "").length ≠ 64 then .error "Invalid Lightning payment hash format"
  else .ok ()

/-- `_validate_reference_proof`. -/
def refProofCheck (tag : List String) : Except String Unit :=
  if tag.length < 4 then .error "Reference proof missing event ID or kind"
  else if (tag.getD 2 "").length ≠ 64 then .error "Invalid referenced event ID format"
  else .ok ()

/-- `_validate_anti_spam`: exactly one recognized proof variant dispatches;
a missing tag or an unknown variant is rejected. -/
def antiSpamCheck (e : EventV) : Except String Unit :=
  match findAntiSpamTag e.tags with
  | none => .error "Missing anti_spam_proof tag"
  | some tag =>
      if tag.getD 1 "" = "pow" then powProofCheck e.id tag
      else if tag.getD 1 "" = "ln" then lnProofCheck tag
      else if tag.getD 1 "" = "ref" then refProofCheck tag
      else .error "Unknown anti-spam proof type"

/-- `validation.validate_event`: the short-circuiting pipeline.  `sigOk`
models the `verify_event` call (external curve arithmetic). -/
def validate_event (schemaOk sigOk : EventV → Bool) (checkSig : Bool)
    (e : EventV) : Except String Unit := do
  structureCheck e
  schemaCheck schemaOk e
  contentCheck e
  antiSpamCheck e
  if checkSig then
    if sigOk e then .ok () else .error "Invalid cryptographic signature"
  else .ok ()

/-- `_get_reference_field`. -/
def referenceField (kind : Int) : Option String :=
  if kind = 301 then some "product_ref"
  else if kind = 303 then some "bid_ref"
  else if kind = 311 then some "bid_ref"
  else if kind = 313 then some "payment_ref"
  else none

/-- One step of `_validate_event_sequence`'s reference loop: if the later
event's reference field is present, it must equal the previous event's id
(a non-string value compares unequal to the id and is rejected). -/
def refCheck (prev cur : EventV) : Except String Unit :=
  match referenceField cur.kind with
  | none => .ok ()
  | some fld =>
      match cur.content.lookup fld with
      | none => .ok ()
      | some (.str s) => if s = prev.id then .ok () else .error "references wrong previous event"
      | some _ => .error "references wrong previous event"

/-- The reference loop over adjacent pairs. -/
def refChecks : EventV → List EventV → Except String Unit
  | _, [] => .ok ()
  | prev, cur :: rest => do
      refCheck prev cur
      refChecks cur rest

/-- `_validate_event_sequence`: the kind sequence must be exactly
`[300, 301, 303, 311, 313]`, then each adjacent reference must match. -/
def sequenceCheck (events : List EventV) : Except String Unit :=
  if events.map (·.kind) = [300, 301, 303, 311, 313] then
    match events with
    | [] => .ok ()
    | e :: rest => refChecks e rest
  else .error "Invalid event sequence"

/-- `_validate_state_transitions`: the bid may exceed the listing price by
at most 10% (`bid > price * 1.1`, stated integrally as
`10 * bid > 11 * price`); missing or non-numeric amounts propagate as
errors. -/
def stateTransitionsCheck (events : List EventV) : Except String Unit :=
  match events with
  | e0 :: e1 :: _ =>
      match e0.content.lookup "price_satoshis", e1.content.lookup "bid_amount_satoshis" with
      | some (.num price), some (.num bid) =>
          if 11 * price < 10 * bid then .error "Bid amount significantly exceeds listing price"
          else .ok ()
      | _, _ => .error "amount missing"
  | _ => .error "amount missing"

/-- Individual validation of every chain member (signatures included, as
`validate_event`'s default). -/
def validateAll (schemaOk sigOk : EventV → Bool) : List EventV → Except String Unit
  | [] => .ok ()
  | e :: rest => do
      validate_event schemaOk sigOk true e
      validateAll schemaOk sigOk rest

/-- `validation.validate_event_chain`. -/
def validate_event_chain (schemaOk sigOk : EventV → Bool)
    (events : List EventV) : Except String Unit :=
  if events.isEmpty then .error "Empty event chain"
  else do
    validateAll schemaOk sigOk events
    sequenceCheck events
    stateTransitionsCheck events

/-! ## Reputation (`reputation.ReputationSystem`)

The per-pubkey score lists and the aggregated map are recomputed from the
full history on every `add_reputation_score`, so the stored aggregate is a
function of the stored score list; the embedding keeps the flat list of
validly added scores and computes the aggregate on demand.  The float
arithmetic is modelled over `ℝ` (`0.95 ** days_old` is `Real.rpow`). -/

/-- `reputation.ReputationScore`. -/
structure ReputationScore where
  transaction_id : String
  reviewer_pubkey : String
  reviewed_pubkey : String
  overall_rating : Int
  item_quality : Option Int := none
  shipping_speed : Option Int := none
  communication : Option Int := none
  payment_reliability : Option Int := none
  transaction_amount_sats : Int := 0
  review_timestamp : Int := 0
  review_text : String := ""
  verified_purchase : Bool := false
  escrow_completed : Bool := false
deriving DecidableEq, Repr

/-- An optional 1–5 rating is in bounds when present. -/
def optRatingOk : Option Int → Bool
  | none => true
  | some r => decide (1 ≤ r ∧ r ≤ 5)

/-- `ReputationSystem._validate_score`. -/
def validScore (s : ReputationScore) : Bool :=
  decide (1 ≤ s.overall_rating ∧ s.overall_rating ≤ 5)
    && optRatingOk s.item_quality
    && optRatingOk s.shipping_speed
    && optRatingOk s.communication
    && optRatingOk s.payment_reliability
    && decide (0 ≤ s.transaction_amount_sats)

/-- The combined time-decay × volume × verification weight of one score
(`_calculate_weighted_average`, with `decay_factor = 0.95`,
`volume_weight_factor = 0.1` and `verified_purchase_bonus = 0.2`). -/
noncomputable def scoreWeight (now : Int) (s : ReputationScore) : ℝ :=
  ((0.95 : ℝ) ^ (((now - s.review_timestamp : Int) : ℝ) / (24 * 3600)))
    * (1 + 0.1 * ((s.transaction_amount_sats : ℝ) / 1000000))
    * (1 + (if s.verified_purchase then (0.2 : ℝ) else 0)
         + (if s.escrow_completed then (0.2 : ℝ) else 0))

/-- Σ rating·weight over the history. -/
noncomputable def weightedSum (now : Int) (scores : List ReputationScore) : ℝ :=
  (scores.map fun s => (s.overall_rating : ℝ) * scoreWeight now s).sum

/-- Σ weight over the history. -/
noncomputable def totalWeight (now : Int) (scores : List ReputationScore) : ℝ :=
  (scores.map (scoreWeight now)).sum

/-- `_calculate_weighted_average` applied to the overall rating (0 when the
total weight is not positive). -/
noncomputable def overallScore (now : Int) (scores : List ReputationScore) : ℝ :=
  if 0 < totalWeight now scores then weightedSum now scores / totalWeight now scores else 0

/-- Reviews per distinct reviewer (`Counter(reviewers).values()`). -/
def reviewCounts (reviewers : List String) : List Nat :=
  reviewers.dedup.map fun r => reviewers.count r

/-- `sum((i + 1) * count for i, count in enumerate(counts))`, entered with
`i + 1 = 1`. -/
def giniCumsum : Nat → List Nat → Nat
  | _, [] => 0
  | i, c :: cs => i * c + giniCumsum (i + 1) cs

/-- `_calculate_gini_coefficient` over the reviewer multiset:
`2·cumsum/(n·total) − (n+1)/n` on the ascending review counts. -/
noncomputable def giniCoefficient (reviewers : List String) : ℝ :=
  if reviewers.isEmpty then 0
  else
    let counts := (reviewCounts reviewers).mergeSort fun a b => decide (a ≤ b)
    (2 * (giniCumsum 1 counts : ℝ)) / ((counts.length : ℝ) * (counts.sum : ℝ))
      - ((counts.length : ℝ) + 1) / (counts.length : ℝ)

/-- `max(timestamps)` over a (nonempty) history. -/
def maxTimestamp : List Int → Int
  | [] => 0
  | t :: ts => ts.foldl max t

/-- The fields of `AggregatedReputation` that `get_trust_score` reads
(`_update_aggregated_reputation`; the per-metric averages and 30-day
counters feed only the presentation summary). -/
structure AggregatedReputation where
  pubkey : String
  overall_score : ℝ
  total_transactions : Nat
  total_volume_sats : Int
  verified_purchases : Nat
  completed_escrows : Nat
  last_transaction : Int
  review_concentration : ℝ

/-- `_update_aggregated_reputation` on a pubkey's (nonempty) score list. -/
noncomputable def updateAggregated (now : Int) (pk : String)
    (scores : List ReputationScore) : AggregatedReputation where
  pubkey := pk
  overall_score := overallScore now scores
  total_transactions := scores.length
  total_volume_sats := (scores.map (·.transaction_amount_sats)).sum
  verified_purchases := (scores.filter (·.verified_purchase)).length
  completed_escrows := (scores.filter (·.escrow_completed)).length
  last_transaction := maxTimestamp (scores.map (·.review_timestamp))
  review_concentration := giniCoefficient (scores.map (·.reviewer_pubkey))

/-- The system state: the validly added scores, in order. -/
structure ReputationSystem where
  scores : List ReputationScore

/-- `self.reputation_scores[pubkey]`. -/
def scoresFor (sys : ReputationSystem) (pk : String) : List ReputationScore :=
  sys.scores.filter fun s => s.reviewed_pubkey == pk

/-- `add_reputation_score`: `none` models the `ValueError` on an invalid
score; otherwise the score is appended and the aggregate recomputed. -/
def add_reputation_score (sys : ReputationSystem) (s : ReputationScore) :
    Option ReputationSystem :=
  if validScore s then some ⟨sys.scores ++ [s]⟩ else none

/-- The weighted sum of the five trust factors of `get_trust_score`:
base rating, volume capped at 1 BTC, verification rate, reviewer
diversity (`1 − gini`), and the recency decay floored at 0.1. -/
noncomputable def trustFactors (now : Int) (rep : AggregatedReputation) : ℝ :=
  (rep.overall_score / 5) * 0.4
    + (min 1 ((rep.total_volume_sats : ℝ) / 100000000)) * 0.2
    + (if 0 < rep.total_transactions then
        ((rep.verified_purchases : ℝ) + (rep.completed_escrows : ℝ))
          / (2 * (rep.total_transactions : ℝ))
      else 0) * 0.2
    + (1 - rep.review_concentration) * 0.1
    + (if 0 < rep.last_transaction then
        max 0.1 (1 - (((now - rep.last_transaction : Int) : ℝ) / (24 * 3600)) / 365)
      else 0.1) * 0.1

/-- `get_trust_score`: 0 for a pubkey with no aggregate (never reviewed),
otherwise the weighted sum of the five factors, capped at 1. -/
noncomputable def get_trust_score (now : Int) (sys : ReputationSystem) (pk : String) : ℝ :=
  if (scoresFor sys pk).isEmpty then 0
  else min 1 (trustFactors now (updateAggregated now pk (scoresFor sys pk)))

/-! ## Concrete instances used to exercise the theorems -/

/-- A pending escrow with a positive buyer collateral requirement. -/
def escrowPend : HTLCEscrow where
  transaction_id := "t1"
  buyer_pubkey := "b"
  seller_pubkey := "s"
  purchase_amount_sats := 1000
  buyer_collateral_sats := 50
  seller_collateral_sats := 0
  payment_hash := "h"
  payment_preimage := some "secret"
  created_at := 0
  expires_at := 86400

/-- The same escrow, already activated. -/
def escrowActive : HTLCEscrow := { escrowPend with state := .active }

/-- The same escrow, already completed (a terminal state). -/
def escrowDone : HTLCEscrow := { escrowPend with state := .completed }

/-- A manager holding a single escrow under id `t1`. -/
def mgr1 (e : HTLCEscrow) : LightningEscrowManager := ⟨[("t1", e)]⟩

/-- Fields of a small event used to exercise the PoW search. -/
def fieldsEx : EventFields := ⟨"pk", 1, 300, [], "x"⟩

end Domp

namespace Domp

example : sha256Hex [] =
    "e3b0c44298fc1c149afbf4c8996fb92427ae41e4649b934ca495991b7852b855" := by decide

example : serializeEvent ⟨"pk", 1, 300, [["a", "b"]], "hello"⟩ =
    "[0,\"pk\",1,300,[[\"a\",\"b\"]],\"hello\"]" := by decide

example : compute_event_id ⟨"pk", 1, 300, [["a", "b"]], "hello"⟩ =
    "3abb55cbab3febf1fe9ea1076f88fd8c69ecabc5c222e11b8cdc1ff414a39292" := by decide

example : compute_event_id ⟨"pk", 1, 300, [["b", "a"]], "hello"⟩ =
    "19948382a8a837b87ef2e297968393a8e8c9a61790dcee3dfff2f345588f51a6" := by decide

/-! ## Escrow state machine lemmas -/

/-- List form of `get_set_same`, by induction on the association list. -/
theorem find_set_list (l : List (String × HTLCEscrow)) (tid : String)
    (e e' : HTLCEscrow)
    (h : (l.find? (fun p => p.1 == tid)).map Prod.snd = some e) :
    ((l.map fun p => if (p.1 == tid) = true then (p.1, e') else p).find?
        (fun p => p.1 == tid)).map Prod.snd = some e' := by
  induction l with
  | nil => simp at h
  | cons p ps ih =>
      simp only [List.map_cons]
      cases hp : (p.1 == tid) with
      | true =>
          rw [if_pos rfl]
          rw [List.find?_cons_of_pos _ (by simpa using hp)]
          rfl
      | false =>
          rw [if_neg (by simp)]
          rw [List.find?_cons_of_neg _ (by simp [hp])]
          rw [List.find?_cons_of_neg _ (by simp [hp])] at h
          exact ih h

/-- Replacing the escrow stored under a present key is observed by `get`. -/
theorem get_set_same (m : LightningEscrowManager) (tid : String)
    (e e' : HTLCEscrow) (h : m.get tid = some e) :
    (m.set tid e').get tid = some e' :=
  find_set_list m.escrows tid e e' h

/-- `release_payment` on an unknown transaction id. -/
theorem release_not_found (m : LightningEscrowManager) (tid : String)
    (h : m.get tid = none) : release_payment m tid = (none, m) := by
  unfold release_payment; rw [h]

/-- `release_payment` on a non-`Active` escrow. -/
theorem release_not_active (m : LightningEscrowManager) (tid : String)
    (e : HTLCEscrow) (h : m.get tid = some e) (ha : e.state ≠ .active) :
    release_payment m tid = (none, m) := by
  unfold release_payment; rw [h]; simp [ha]

/-- `release_payment` on an `Active` escrow. -/
theorem release_active (m : LightningEscrowManager) (tid : String)
    (e : HTLCEscrow) (h : m.get tid = some e) (ha : e.state = .active) :
    release_payment m tid = (e.payment_preimage, m.set tid { e with state := .completed }) := by
  unfold release_payment; rw [h]; simp [ha]

/-- The funding condition, as a proposition. -/
theorem funded_iff (e : HTLCEscrow) (bph : String) (bch sch : Option String) :
    (strTruthy bph
      && (!(decide (0 < e.buyer_collateral_sats)) || optTruthy bch)
      && (!(decide (0 < e.seller_collateral_sats)) || optTruthy sch)) = true
    ↔ (strTruthy bph = true
        ∧ (0 < e.buyer_collateral_sats → optTruthy bch = true)
        ∧ (0 < e.seller_collateral_sats → optTruthy sch = true)) := by
  simp only [Bool.and_eq_true, Bool.or_eq_true, Bool.not_eq_true', decide_eq_false_iff_not]
  constructor
  · rintro ⟨⟨h1, h2⟩, h3⟩
    exact ⟨h1, fun hb => h2.resolve_left (by simpa using hb),
      fun hs => h3.resolve_left (by simpa using hs)⟩
  · rintro ⟨h1, h2, h3⟩
    refine ⟨⟨h1, ?_⟩, ?_⟩
    · by_cases hb : 0 < e.buyer_collateral_sats
      · exact Or.inr (h2 hb)
      · exact Or.inl (by simpa using hb)
    · by_cases hs : 0 < e.seller_collateral_sats
      · exact Or.inr (h3 hs)
      · exact Or.inl (by simpa using hs)

/-- C2: on an escrow in state `Pending`, `fund_escrow` records the supplied
hashes and transitions to `Active` iff the buyer payment hash is non-empty
and each collateral hash whose collateral amount is positive is present;
it returns `true` exactly when the transition occurred, and on `false` the
state remains `Pending`. -/
theorem fund_escrow_pending_spec (m : LightningEscrowManager) (tid : String)
    (bph : String) (bch sch : Option String) (e : HTLCEscrow)
    (hget : m.get tid = some e) (hpend : e.state = .pending) :
    ((fund_escrow m tid bph bch sch).1 = true
      ↔ (strTruthy bph = true
          ∧ (0 < e.buyer_collateral_sats → optTruthy bch = true)
          ∧ (0 < e.seller_collateral_sats → optTruthy sch = true)))
    ∧ ∃ e', ((fund_escrow m tid bph bch sch).2).get tid = some e'
        ∧ e'.buyer_payment_hash = some bph
        ∧ e'.buyer_collateral_hash = (if optTruthy bch then bch else e.buyer_collateral_hash)
        ∧ e'.seller_collateral_hash = (if optTruthy sch then sch else e.seller_collateral_hash)
        ∧ e'.state = (if (fund_escrow m tid bph bch sch).1 then .active else .pending) := by
  unfold fund_escrow
  rw [hget]
  by_cases hc : (strTruthy bph
      && (!(decide (0 < e.buyer_collateral_sats)) || optTruthy bch)
      && (!(decide (0 < e.seller_collateral_sats)) || optTruthy sch)) = true
  · simp only [hc, if_true]
    refine ⟨by simpa using (funded_iff e bph bch sch).mp hc, ?_⟩
    exact ⟨_, get_set_same m tid e _ hget, rfl, rfl, rfl, rfl⟩
  · simp only [hc, if_false, Bool.false_eq_true]
    refine ⟨by simpa [hc] using (funded_iff e bph bch sch).not, ?_⟩
    exact ⟨_, get_set_same m tid e _ hget, rfl, rfl, rfl, by simp [hpend]⟩

/-- C3: `release_payment` succeeds only from `Active`: it completes the
escrow and returns the stored preimage, a second release then fails; an
unknown id or a non-`Active` state returns `None` and changes nothing. -/
theorem release_payment_spec :
    (∀ (m : LightningEscrowManager) (tid : String) (e : HTLCEscrow),
        m.get tid = some e → e.state = .active →
        (release_payment m tid).1 = e.payment_preimage
        ∧ ((release_payment m tid).2).get tid = some { e with state := .completed }
        ∧ release_payment (release_payment m tid).2 tid
            = (none, (release_payment m tid).2))
    ∧ (∀ (m : LightningEscrowManager) (tid : String),
        m.get tid = none → release_payment m tid = (none, m))
    ∧ (∀ (m : LightningEscrowManager) (tid : String) (e : HTLCEscrow),
        m.get tid = some e → e.state ≠ .active → release_payment m tid = (none, m)) := by
  refine ⟨?_, release_not_found, release_not_active⟩
  intro m tid e hget hact
  have h1 := release_active m tid e hget hact
  have h2 : ((release_payment m tid).2).get tid = some { e with state := .completed } := by
    rw [h1]; exact get_set_same m tid e _ hget
  refine ⟨by rw [h1], h2, ?_⟩
  exact release_not_active _ tid _ h2 (by simp)

/-- C10: `fund_escrow` never inspects the current state: a satisfying fund
call on an escrow in a terminal state reactivates it and returns `true`,
after which `release_payment` hands out the preimage again. -/
theorem fund_escrow_ignores_terminal_state (m : LightningEscrowManager)
    (tid : String) (bph : String) (bch sch : Option String) (e : HTLCEscrow)
    (hget : m.get tid = some e)
    (hterm : e.state = .completed ∨ e.state = .refunded ∨ e.state = .expired)
    (h1 : strTruthy bph = true)
    (h2 : 0 < e.buyer_collateral_sats → optTruthy bch = true)
    (h3 : 0 < e.seller_collateral_sats → optTruthy sch = true) :
    (fund_escrow m tid bph bch sch).1 = true
    ∧ (∃ e', ((fund_escrow m tid bph bch sch).2).get tid = some e' ∧ e'.state = .active)
    ∧ (release_payment (fund_escrow m tid bph bch sch).2 tid).1 = e.payment_preimage := by
  have hc := (funded_iff e bph bch sch).mpr ⟨h1, h2, h3⟩
  have hfund : fund_escrow m tid bph bch sch
      = (true, m.set tid { e with
          buyer_payment_hash := some bph
          buyer_collateral_hash := if optTruthy bch then bch else e.buyer_collateral_hash
          seller_collateral_hash := if optTruthy sch then sch else e.seller_collateral_hash
          state := .active }) := by
    unfold fund_escrow; rw [hget]; simp [hc]
  have hget' := get_set_same m tid e { e with
      buyer_payment_hash := some bph
      buyer_collateral_hash := if optTruthy bch then bch else e.buyer_collateral_hash
      seller_collateral_hash := if optTruthy sch then sch else e.seller_collateral_hash
      state := .active } hget
  refine ⟨by rw [hfund], ⟨_, by rw [hfund]; exact hget', rfl⟩, ?_⟩
  have hrel := release_active (fund_escrow m tid bph bch sch).2 tid _
    (by rw [hfund]; exact hget') rfl
  rw [hrel]

/-- A satisfying fund call on the pending single-escrow manager succeeds. -/
theorem fund_escrow_pending_spec_witness :
    (fund_escrow (mgr1 escrowPend) "t1" "ph" (some "ch") none).1 = true :=
  (fund_escrow_pending_spec (mgr1 escrowPend) "t1" "ph" (some "ch") none
      escrowPend rfl rfl).1.mpr (by decide)

/-- Releasing an active escrow yields its preimage; from pending it fails. -/
theorem release_payment_spec_witness :
    (release_payment (mgr1 escrowActive) "t1").1 = some "secret"
    ∧ release_payment (mgr1 escrowPend) "t1" = (none, mgr1 escrowPend) :=
  ⟨(release_payment_spec.1 (mgr1 escrowActive) "t1" escrowActive rfl rfl).1,
   release_payment_spec.2.2 (mgr1 escrowPend) "t1" escrowPend rfl (by decide)⟩

/-- A satisfying fund call on a completed escrow reactivates it. -/
theorem fund_escrow_ignores_terminal_state_witness :
    (fund_escrow (mgr1 escrowDone) "t1" "ph" (some "ch") none).1 = true :=
  (fund_escrow_ignores_terminal_state (mgr1 escrowDone) "t1" "ph" (some "ch") none
      escrowDone rfl (Or.inl rfl) (by decide) (by decide) (by decide)).1

/-! ## Event identity and signature verification -/

/-- C1: with a PoW anti-spam tag, `verify_event` checks the Schnorr
signature against the stored id without recomputing the id, so an event
whose stored id is not the hash of its serialization is accepted whenever
the signature check passes; without a PoW tag the id is recomputed and a
mismatch is rejected. -/
theorem verify_event_pow_trusts_stored_id :
    (∀ (schnorr : String → String → String → Bool) (e : Event),
        hasPowTag e.tags = true →
        verify_event schnorr e = schnorr e.id e.sig e.pubkey)
    ∧ (∃ e : Event, hasPowTag e.tags = true
        ∧ e.id ≠ compute_event_id e.fields
        ∧ verify_event (fun _ _ _ => true) e = true)
    ∧ (∀ (schnorr : String → String → String → Bool) (e : Event),
        hasPowTag e.tags = false →
        compute_event_id e.fields ≠ e.id →
        verify_event schnorr e = false) := by
  refine ⟨?_, ?_, ?_⟩
  · intro schnorr e h
    simp [verify_event, h]
  · refine ⟨⟨"00", "pk", 1, 300, [["anti_spam_proof", "pow", "0", "0"]], "x", "sig"⟩,
      by decide, by decide, by decide⟩
  · intro schnorr e h hne
    simp [verify_event, h, hne]

/-- C1 witness: a concrete PoW-tagged event is passed straight to the
signature check. -/
theorem verify_event_pow_trusts_stored_id_witness :
    verify_event (fun _ _ _ => true)
        ⟨"00", "pk", 1, 300, [["anti_spam_proof", "pow", "0", "0"]], "x", "sig"⟩
      = true :=
  verify_event_pow_trusts_stored_id.1 (fun _ _ _ => true)
    ⟨"00", "pk", 1, 300, [["anti_spam_proof", "pow", "0", "0"]], "x", "sig"⟩ rfl

/-- C5: `compute_event_id` is a pure function of the field tuple, and the
strings inside a tag are serialized positionally: swapping two distinct
strings of a tag changes the id. -/
theorem compute_event_id_deterministic_positional :
    (∀ f : EventFields, compute_event_id f = compute_event_id f)
    ∧ ∃ (pk : String) (ts kd : Int) (a b content : String),
        a ≠ b ∧
        compute_event_id ⟨pk, ts, kd, [[a, b]], content⟩
          ≠ compute_event_id ⟨pk, ts, kd, [[b, a]], content⟩ :=
  ⟨fun _ => rfl, "pk", 1, 300, "a", "b", "hello", by decide, by decide⟩

/-- C5 witness: determinism instantiated at a concrete field tuple. -/
theorem compute_event_id_deterministic_positional_witness :
    compute_event_id ⟨"pk", 1, 300, [["a", "b"]], "hello"⟩
      = compute_event_id ⟨"pk", 1, 300, [["a", "b"]], "hello"⟩ :=
  compute_event_id_deterministic_positional.1 ⟨"pk", 1, 300, [["a", "b"]], "hello"⟩

/-! ## Decimal codec round trip -/

theorem digitVal_digitChar : ∀ n, n < 10 → digitVal (digitChar n) = some n := by decide

theorem parseDigits_append (acc : Nat) (xs ys : List Char) :
    parseDigits acc (xs ++ ys)
      = (parseDigits acc xs).bind fun a => parseDigits a ys := by
  induction xs generalizing acc with
  | nil => rfl
  | cons c cs ih =>
      cases h : digitVal c with
      | none => simp [parseDigits, h]
      | some d => simp [parseDigits, h, ih]

theorem parseDigits_natDigits (fuel : Nat) :
    ∀ n acc, n < fuel →
      parseDigits acc (natDigits fuel n)
        = some (acc * 10 ^ (natDigits fuel n).length + n) := by
  induction fuel with
  | zero => intro n acc h; omega
  | succ fuel ih =>
      intro n acc h
      by_cases h10 : n < 10
      · simp [natDigits, h10, parseDigits, digitVal_digitChar n h10]
      · have hdiv : n / 10 < fuel := by
          have := Nat.div_lt_self (by omega : 0 < n) (by omega : 1 < 10)
          omega
        have hstep : natDigits (fuel + 1) n
            = natDigits fuel (n / 10) ++ [digitChar (n % 10)] := by
          simp [natDigits, h10]
        rw [hstep, parseDigits_append, ih (n / 10) acc hdiv]
        have hd9 : digitVal (digitChar (n % 10)) = some (n % 10) :=
          digitVal_digitChar _ (Nat.mod_lt _ (by omega))
        simp only [Option.some_bind, parseDigits, hd9, List.length_append,
          List.length_singleton]
        congr 1
        have hmod : 10 * (n / 10) + n % 10 = n := Nat.div_add_mod n 10
        calc (acc * 10 ^ (natDigits fuel (n / 10)).length + n / 10) * 10 + n % 10
            = acc * (10 ^ (natDigits fuel (n / 10)).length * 10)
                + (10 * (n / 10) + n % 10) := by ring
          _ = acc * 10 ^ ((natDigits fuel (n / 10)).length + 1) + n := by
              rw [hmod, pow_succ]

theorem natDigits_ne_nil (fuel n : Nat) : natDigits (fuel + 1) n ≠ [] := by
  unfold natDigits; split <;> simp

theorem natDigits_are_digits (fuel : Nat) :
    ∀ n c, c ∈ natDigits fuel n → 48 ≤ c.toNat ∧ c.toNat ≤ 57 := by
  have haux : ∀ m, m < 10 → 48 ≤ (digitChar m).toNat ∧ (digitChar m).toNat ≤ 57 := by decide
  induction fuel with
  | zero => intro n c hc; simp [natDigits] at hc
  | succ fuel ih =>
      intro n c hc
      by_cases h10 : n < 10
      · simp [natDigits, h10] at hc
        exact hc ▸ haux n h10
      · simp only [natDigits, h10, if_false, List.mem_append, List.mem_singleton] at hc
        rcases hc with hc | hc
        · exact ih (n / 10) c hc
        · exact hc ▸ haux (n % 10) (Nat.mod_lt _ (by omega))

/-- `int(str(n)) == n` for the decimal forms the PoW tag stores. -/
theorem pyInt_natStr (n : Nat) : pyInt (natStr n) = some (n : Int) := by
  have hne := natDigits_ne_nil n n
  cases hd : natDigits (n + 1) n with
  | nil => exact absurd hd hne
  | cons c cs =>
      have hc : 48 ≤ c.toNat ∧ c.toNat ≤ 57 :=
        natDigits_are_digits (n + 1) n c (hd ▸ List.mem_cons_self c cs)
      have hdash : c ≠ '-' := by
        intro h
        have h45 : ('-').toNat = 45 := by decide
        rw [h, h45] at hc
        omega
      have hparse : parseDigits 0 (c :: cs) = some n := by
        rw [← hd, parseDigits_natDigits (n + 1) n 0 (Nat.lt_succ_self n)]
        simp
      show pyInt (String.mk (natDigits (n + 1) n)) = some (n : Int)
      rw [hd]
      unfold pyInt
      simp only [String.data]
      split
      · simp_all
      · rename_i heq
        rw [List.cons.injEq] at heq
        exact absurd heq.1 hdash
      · simp [hparse]

/-! ## PoW mining: characterization, success and verification -/

/-- The mining loop returns the least satisfying nonce in the window it
was given fuel for, and `none` exactly when no nonce in that window
satisfies the target. -/
theorem powLoop_spec (f : EventFields) (d : Nat) :
    ∀ fuel start,
      (∃ n, start ≤ n ∧ n < start + fuel ∧ powOk f d n = true
        ∧ (∀ m, start ≤ m → m < n → powOk f d m = false)
        ∧ powLoop f d start fuel = some (powAttemptId f d n, natStr n))
      ∨ ((∀ n, start ≤ n → n < start + fuel → powOk f d n = false)
        ∧ powLoop f d start fuel = none) := by
  intro fuel
  induction fuel with
  | zero =>
      intro start
      exact Or.inr ⟨fun n h1 h2 => by omega, rfl⟩
  | succ fuel ih =>
      intro start
      by_cases h : powOk f d start = true
      · refine Or.inl ⟨start, le_refl _, by omega, h, fun m h1 h2 => by omega, ?_⟩
        simp [powLoop, h]
      · have h' : powOk f d start = false := by
          cases hb : powOk f d start
          · rfl
          · exact absurd hb h
        rcases ih (start + 1) with ⟨n, h1, h2, hok, hmin, heq⟩ | ⟨hall, heq⟩
        · refine Or.inl ⟨n, by omega, by omega, hok, ?_, ?_⟩
          · intro m hm1 hm2
            by_cases hm : m = start
            · exact hm ▸ h'
            · exact hmin m (by omega) hm2
          · simpa [powLoop, h'] using heq
        · refine Or.inr ⟨?_, by simpa [powLoop, h'] using heq⟩
          intro n h1 h2
          by_cases hn : n = start
          · exact hn ▸ h'
          · exact hall n (by omega) (by omega)

/-- C7: mining always terminates: either some nonce among 0 … 10,000,000
satisfies the target, and the least such nonce is returned with its id, or
every nonce in that range fails and the search reports exhaustion
(`none`, the `RuntimeError`). -/
theorem generate_pow_nonce_terminates (f : EventFields) (d : Nat) :
    (∃ n, n ≤ 10000000 ∧ powOk f d n = true
      ∧ (∀ m, m < n → powOk f d m = false)
      ∧ generate_pow_nonce f d = some (powAttemptId f d n, natStr n))
    ∨ ((∀ n, n ≤ 10000000 → powOk f d n = false) ∧ generate_pow_nonce f d = none) := by
  rcases powLoop_spec f d 10000001 0 with ⟨n, h1, h2, hok, hmin, heq⟩ | ⟨hall, heq⟩
  · exact Or.inl ⟨n, by omega, hok, fun m hm => hmin m (by omega) hm, heq⟩
  · exact Or.inr ⟨fun n hn => hall n (by omega) (by omega), heq⟩

/-- C7 witness: at difficulty 0 the search succeeds immediately at nonce 0. -/
theorem generate_pow_nonce_terminates_witness :
    generate_pow_nonce fieldsEx 0 = some (powAttemptId fieldsEx 0 0, natStr 0) := by
  rcases generate_pow_nonce_terminates fieldsEx 0 with ⟨n, _, _, hmin, heq⟩ | ⟨hall, _⟩
  · have hn : n = 0 := by
      by_contra hne
      have := hmin 0 (by omega)
      rw [show powOk fieldsEx 0 0 = true from by decide] at this
      exact absurd this (by simp)
    rw [hn] at heq
    exact heq
  · have := hall 0 (by omega)
    rw [show powOk fieldsEx 0 0 = true from by decide] at this
    exact absurd this (by simp)

/-- C6: for a difficulty that is a multiple of 4, a successful mining run
returns an id whose hex digest starts with at least `difficulty / 4` zero
characters; `_validate_pow_proof` accepts that id with the produced PoW
tag (also carried by `generate_pow_event`'s returned event) and rejects
any stored id lacking the prefix. -/
theorem pow_mining_verified (f : EventFields) (d : Nat) (hd : 4 ∣ d)
    (id ns : String) (hsome : generate_pow_nonce f d = some (id, ns)) :
    strStartsWith id (powZeros d) = true
    ∧ powProofCheck id ["anti_spam_proof", "pow", ns, natStr d] = .ok ()
    ∧ generate_pow_event f d
        = some (id, ns, { f with tags := f.tags ++ [["anti_spam_proof", "pow", ns, natStr d]] })
    ∧ (∀ id' : String, strStartsWith id' (powZeros d) = false →
        powProofCheck id' ["anti_spam_proof", "pow", ns, natStr d]
          = .error "PoW does not meet difficulty") := by
  have hfd := Int.ofNat_fdiv d 4
  push_cast at hfd
  have h4 : (((d : Int)).fdiv 4).toNat = d / 4 := by
    rw [← hfd]; omega
  have hzeros : String.mk (List.replicate ((((d : Int)).fdiv 4).toNat) '0') = powZeros d := by
    rw [h4]; rfl
  have hcheck : ∀ s : String,
      powProofCheck s ["anti_spam_proof", "pow", ns, natStr d]
        = if strStartsWith s (powZeros d) then .ok () else .error "PoW does not meet difficulty" := by
    intro s
    have h3 : (["anti_spam_proof", "pow", ns, natStr d] : List String).getD 3 "" = natStr d := rfl
    have h1 : powProofCheck s ["anti_spam_proof", "pow", ns, natStr d]
        = match pyInt (natStr d) with
          | none => .error "PoW difficulty must be integer"
          | some dd =>
              if strStartsWith s (String.mk (List.replicate ((dd.fdiv 4).toNat) '0')) then
                Except.ok ()
              else Except.error "PoW does not meet difficulty" := by
      unfold powProofCheck
      rw [if_neg (by simp), h3]
    rw [h1, pyInt_natStr]
    simp only [hzeros]
  have hstart : strStartsWith id (powZeros d) = true := by
    rcases powLoop_spec f d 10000001 0 with ⟨n, _, _, hok, _, heq⟩ | ⟨_, heq⟩
    · unfold generate_pow_nonce at hsome
      rw [heq] at hsome
      rw [Option.some.injEq, Prod.mk.injEq] at hsome
      rw [← hsome.1]
      exact hok
    · unfold generate_pow_nonce at hsome
      rw [heq] at hsome
      exact absurd hsome (by simp)
  refine ⟨hstart, by rw [hcheck, if_pos hstart], ?_, fun id' hmiss => by rw [hcheck, if_neg (by simp [hmiss])]⟩
  unfold generate_pow_event
  rw [hsome]
  rfl

/-- C6 witness: at difficulty 0, mining succeeds and verification accepts
the produced id and tag. -/
theorem pow_mining_verified_witness :
    powProofCheck (powAttemptId fieldsEx 0 0) ["anti_spam_proof", "pow", natStr 0, natStr 0]
      = .ok () :=
  (pow_mining_verified fieldsEx 0 ⟨0, rfl⟩ (powAttemptId fieldsEx 0 0) (natStr 0)
    (by decide)).2.1

/-! ## Validation pipeline plumbing -/

/-- A successful `Except` bind means both stages succeeded. -/
theorem except_bind_ok (x : Except String Unit) (g : Unit → Except String Unit)
    (h : (x >>= g) = .ok ()) : x = .ok () ∧ g () = .ok () := by
  cases x with
  | error e => simp [Bind.bind, Except.bind] at h
  | ok u =>
      cases u
      exact ⟨rfl, by simpa [Bind.bind, Except.bind] using h⟩

/-- A non-ok result of the pipeline is an error. -/
theorem error_of_not_ok {r : Except String Unit} (h : r ≠ .ok ()) :
    ∃ m, r = .error m := by
  cases r with
  | error m => exact ⟨m, rfl⟩
  | ok u => cases u; exact absurd rfl h

/-- A successful `validate_event` means every stage succeeded. -/
theorem validate_event_ok_stages (so sg : EventV → Bool) (cs : Bool) (e : EventV)
    (h : validate_event so sg cs e = .ok ()) :
    structureCheck e = .ok () ∧ schemaCheck so e = .ok ()
      ∧ contentCheck e = .ok () ∧ antiSpamCheck e = .ok () := by
  unfold validate_event at h
  obtain ⟨h1, h⟩ := except_bind_ok _ _ h
  obtain ⟨h2, h⟩ := except_bind_ok _ _ h
  obtain ⟨h3, h⟩ := except_bind_ok _ _ h
  obtain ⟨h4, _⟩ := except_bind_ok _ _ h
  exact ⟨h1, h2, h3, h4⟩

/-- A listing whose `price_satoshis` parses to 0 fails content validation. -/
theorem listing_price_zero_err (c : Json)
    (h : c.lookup "price_satoshis" = some (.num 0)) :
    ∃ m, listingContentCheck c = .error m := by
  unfold listingContentCheck
  rw [h]
  split_ifs with h1 h2 h3
  · exact ⟨_, rfl⟩
  · exact ⟨_, rfl⟩
  · exact ⟨_, rfl⟩
  · exact ⟨"Price must be positive", by norm_num⟩

/-- A bid whose `buyer_collateral_satoshis` parses to −1 fails content
validation. -/
theorem bid_neg_collateral_err (c : Json)
    (h : c.lookup "buyer_collateral_satoshis" = some (.num (-1))) :
    ∃ m, bidContentCheck c = .error m := by
  unfold bidContentCheck
  rw [h]
  split_ifs with h1 h2 h3
  · exact ⟨_, rfl⟩
  · exact ⟨_, rfl⟩
  · exact ⟨_, rfl⟩
  · split
    · split_ifs with ha
      · exact ⟨_, rfl⟩
      · exact ⟨"Collateral cannot be negative", by norm_num⟩
    · exact ⟨_, rfl⟩
    · exact ⟨_, rfl⟩

/-- A receipt with status `damaged` and no `dispute_reason` fails content
validation. -/
theorem receipt_damaged_err (c : Json)
    (h : c.lookup "status" = some (.str "damaged"))
    (hd : c.lookup "dispute_reason" = none) :
    ∃ m, receiptContentCheck c = .error m := by
  unfold receiptContentCheck
  rw [h]
  split_ifs with h1 h2
  · exact ⟨_, rfl⟩
  · exact ⟨_, rfl⟩
  · exact ⟨"dispute_reason required for non-received status", by simp [hd]⟩

/-- C8: single-event validation rejects a kind-300 listing with zero price,
a kind-301 bid with negative collateral, a kind-313 receipt reporting
damage without a dispute reason, and any event carrying no anti-spam proof
tag of a recognized variant — for every schema-set and signature oracle. -/
theorem validate_event_rejections :
    (∀ (so sg : EventV → Bool) (cs : Bool) (e : EventV), e.kind = 300 →
        e.content.lookup "price_satoshis" = some (.num 0) →
        ∃ m, validate_event so sg cs e = .error m)
    ∧ (∀ (so sg : EventV → Bool) (cs : Bool) (e : EventV), e.kind = 301 →
        e.content.lookup "buyer_collateral_satoshis" = some (.num (-1)) →
        ∃ m, validate_event so sg cs e = .error m)
    ∧ (∀ (so sg : EventV → Bool) (cs : Bool) (e : EventV), e.kind = 313 →
        e.content.lookup "status" = some (.str "damaged") →
        e.content.lookup "dispute_reason" = none →
        ∃ m, validate_event so sg cs e = .error m)
    ∧ (∀ (so sg : EventV → Bool) (cs : Bool) (e : EventV),
        (∀ t ∈ e.tags, ¬(2 ≤ t.length ∧ t.getD 0 "" = "anti_spam_proof"
            ∧ (t.getD 1 "" = "pow" ∨ t.getD 1 "" = "ln" ∨ t.getD 1 "" = "ref"))) →
        ∃ m, validate_event so sg cs e = .error m) := by
  refine ⟨?_, ?_, ?_, ?_⟩
  · intro so sg cs e hk hp
    refine error_of_not_ok fun hok => ?_
    have hc := (validate_event_ok_stages so sg cs e hok).2.2.1
    rw [contentCheck, if_pos hk] at hc
    obtain ⟨m, hm⟩ := listing_price_zero_err e.content hp
    rw [hm] at hc
    exact Except.noConfusion hc
  · intro so sg cs e hk hp
    refine error_of_not_ok fun hok => ?_
    have hc := (validate_event_ok_stages so sg cs e hok).2.2.1
    rw [contentCheck, if_neg (by omega), if_pos hk] at hc
    obtain ⟨m, hm⟩ := bid_neg_collateral_err e.content hp
    rw [hm] at hc
    exact Except.noConfusion hc
  · intro so sg cs e hk hs hd
    refine error_of_not_ok fun hok => ?_
    have hc := (validate_event_ok_stages so sg cs e hok).2.2.1
    rw [contentCheck, if_neg (by omega), if_neg (by omega), if_neg (by omega),
      if_neg (by omega), if_pos hk] at hc
    obtain ⟨m, hm⟩ := receipt_damaged_err e.content hs hd
    rw [hm] at hc
    exact Except.noConfusion hc
  · intro so sg cs e htags
    refine error_of_not_ok fun hok => ?_
    have hc := (validate_event_ok_stages so sg cs e hok).2.2.2
    unfold antiSpamCheck at hc
    cases hfind : findAntiSpamTag e.tags with
    | none => rw [hfind] at hc; exact Except.noConfusion hc
    | some t =>
        simp only [hfind] at hc
        have hmem : t ∈ e.tags := List.mem_of_find?_eq_some hfind
        have hpred := List.find?_some hfind
        rw [Bool.and_eq_true, decide_eq_true_iff] at hpred
        have hnot := htags t hmem
        push_neg at hnot
        have hvar := hnot hpred.1 (by simpa using hpred.2)
        push_neg at hvar
        rw [if_neg hvar.1, if_neg hvar.2.1, if_neg hvar.2.2] at hc
        exact Except.noConfusion hc

/-- C8 witness: four concrete invalid events are rejected. -/
theorem validate_event_rejections_witness :
    (∃ m, validate_event (fun _ => true) (fun _ => true) true
        ⟨"", "", 0, 300, [], .obj [("price_satoshis", .num 0)], ""⟩ = .error m)
    ∧ (∃ m, validate_event (fun _ => true) (fun _ => true) true
        ⟨"", "", 0, 301, [], .obj [("buyer_collateral_satoshis", .num (-1))], ""⟩ = .error m)
    ∧ (∃ m, validate_event (fun _ => true) (fun _ => true) true
        ⟨"", "", 0, 313, [], .obj [("payment_ref", .str "p"), ("status", .str "damaged")], ""⟩
          = .error m)
    ∧ (∃ m, validate_event (fun _ => true) (fun _ => true) true
        ⟨"", "", 0, 300, [["anti_spam_proof", "bogus"]], .obj [], ""⟩ = .error m) :=
  ⟨validate_event_rejections.1 _ _ true _ rfl rfl,
   validate_event_rejections.2.1 _ _ true _ rfl rfl,
   validate_event_rejections.2.2.1 _ _ true _ rfl rfl rfl,
   validate_event_rejections.2.2.2 _ _ true _ (by decide)⟩

/-! ## Chain validation -/

/-- A successful chain validation means the per-event validations and the
sequence check succeeded. -/
theorem chain_ok_stages (so sg : EventV → Bool) (events : List EventV)
    (h : validate_event_chain so sg events = .ok ()) :
    sequenceCheck events = .ok () := by
  unfold validate_event_chain at h
  by_cases he : events.isEmpty
  · rw [if_pos he] at h; exact Except.noConfusion h
  · rw [if_neg he] at h
    obtain ⟨h1, h⟩ := except_bind_ok _ _ h
    obtain ⟨h2, _⟩ := except_bind_ok _ _ h
    exact h2

/-- A successful sequence check means the kinds are exactly the protocol
sequence. -/
theorem sequence_ok_kinds (events : List EventV)
    (h : sequenceCheck events = .ok ()) :
    events.map (·.kind) = [300, 301, 303, 311, 313] := by
  unfold sequenceCheck at h
  by_cases hk : events.map (·.kind) = [300, 301, 303, 311, 313]
  · exact hk
  · rw [if_neg hk] at h; exact Except.noConfusion h

/-- A successful reference loop validates every adjacent pair. -/
theorem refChecks_adjacent : ∀ (prev : EventV) (l : List EventV),
    refChecks prev l = .ok () →
    ∀ (pre : List EventV) (e1 e2 : EventV) (post : List EventV),
      prev :: l = pre ++ e1 :: e2 :: post → refCheck e1 e2 = .ok () := by
  intro prev l
  induction l generalizing prev with
  | nil =>
      intro _ pre e1 e2 post heq
      have := congrArg List.length heq
      simp at this
      omega
  | cons cur rest ih =>
      intro h pre e1 e2 post heq
      obtain ⟨h1, h2⟩ := except_bind_ok _ _ (by simpa [refChecks] using h)
      cases pre with
      | nil =>
          simp only [List.nil_append, List.cons.injEq] at heq
          obtain ⟨he1, he2, _⟩ := heq
          rw [← he1, ← he2]
          exact h1
      | cons p pre' =>
          simp only [List.cons_append, List.cons.injEq] at heq
          exact ih cur h2 pre' e1 e2 post heq.2

/-- A successful sequence check validates every adjacent reference. -/
theorem sequence_ok_refs (events : List EventV)
    (h : sequenceCheck events = .ok ())
    (pre : List EventV) (e1 e2 : EventV) (post : List EventV)
    (heq : events = pre ++ e1 :: e2 :: post) : refCheck e1 e2 = .ok () := by
  unfold sequenceCheck at h
  by_cases hk : events.map (·.kind) = [300, 301, 303, 311, 313]
  · rw [if_pos hk] at h
    cases events with
    | nil => simp at hk
    | cons e rest => exact refChecks_adjacent e rest h pre e1 e2 post heq
  · rw [if_neg hk] at h; exact Except.noConfusion h

/-- C4: chain validation rejects every event list whose kind sequence is
not exactly `[300, 301, 303, 311, 313]` (in particular the truncated
chain), and every chain in which a present reference field of an event
differs from the id of the immediately preceding event — for every
schema-set and signature oracle. -/
theorem validate_event_chain_rejections :
    (∀ (so sg : EventV → Bool) (events : List EventV),
        events.map (·.kind) ≠ [300, 301, 303, 311, 313] →
        ∃ m, validate_event_chain so sg events = .error m)
    ∧ (∀ (so sg : EventV → Bool) (pre : List EventV) (e1 e2 : EventV)
        (post : List EventV) (fld : String) (v : Json),
        referenceField e2.kind = some fld →
        e2.content.lookup fld = some v →
        v ≠ .str e1.id →
        ∃ m, validate_event_chain so sg (pre ++ e1 :: e2 :: post) = .error m) := by
  constructor
  · intro so sg events hk
    refine error_of_not_ok fun hok => ?_
    exact hk (sequence_ok_kinds events (chain_ok_stages so sg events hok))
  · intro so sg pre e1 e2 post fld v hfld hv hne
    refine error_of_not_ok fun hok => ?_
    have hseq := chain_ok_stages so sg _ hok
    have hrc := sequence_ok_refs _ hseq pre e1 e2 post rfl
    unfold refCheck at hrc
    simp only [hfld] at hrc
    cases v with
    | str s =>
        simp only [hv] at hrc
        by_cases hs : s = e1.id
        · exact hne (by rw [hs])
        · rw [if_neg hs] at hrc
          exact Except.noConfusion hrc
    | null => simp only [hv] at hrc; exact Except.noConfusion hrc
    | bool b => simp only [hv] at hrc; exact Except.noConfusion hrc
    | num n => simp only [hv] at hrc; exact Except.noConfusion hrc
    | arr xs => simp only [hv] at hrc; exact Except.noConfusion hrc
    | obj fs => simp only [hv] at hrc; exact Except.noConfusion hrc

/-- C4 witness: the truncated chain and a mismatched bid reference are
rejected. -/
theorem validate_event_chain_rejections_witness :
    (∃ m, validate_event_chain (fun _ => true) (fun _ => true)
        [⟨"", "", 0, 300, [], .obj [], ""⟩, ⟨"", "", 0, 301, [], .obj [], ""⟩,
         ⟨"", "", 0, 303, [], .obj [], ""⟩, ⟨"", "", 0, 311, [], .obj [], ""⟩]
          = .error m)
    ∧ (∃ m, validate_event_chain (fun _ => true) (fun _ => true)
        ([] ++ ⟨"lid", "", 0, 300, [], .obj [], ""⟩
            :: ⟨"", "", 0, 301, [], .obj [("product_ref", .str "other")], ""⟩
            :: [⟨"", "", 0, 303, [], .obj [], ""⟩, ⟨"", "", 0, 311, [], .obj [], ""⟩,
                ⟨"", "", 0, 313, [], .obj [], ""⟩]) = .error m) :=
  ⟨validate_event_chain_rejections.1 _ _ _ (by decide),
   validate_event_chain_rejections.2 _ _ [] _ _ _ "product_ref" (.str "other") rfl rfl
     (by intro h; exact Json.noConfusion h (fun hs => by simp at hs))⟩

/-! ## Reputation bounds -/

/-- The weight of a validly added score is positive. -/
theorem scoreWeight_pos (now : Int) (s : ReputationScore)
    (h : 0 ≤ s.transaction_amount_sats) : 0 < scoreWeight now s := by
  unfold scoreWeight
  have h1 : (0 : ℝ) < (0.95 : ℝ) ^ (((now - s.review_timestamp : Int) : ℝ) / (24 * 3600)) :=
    Real.rpow_pos_of_pos (by norm_num) _
  have h2 : (0 : ℝ) < 1 + 0.1 * ((s.transaction_amount_sats : ℝ) / 1000000) := by
    have hc : (0 : ℝ) ≤ (s.transaction_amount_sats : ℝ) := by exact_mod_cast h
    have := div_nonneg hc (by norm_num : (0 : ℝ) ≤ 1000000)
    linarith
  have h3 : (0 : ℝ) < 1 + (if s.verified_purchase then (0.2 : ℝ) else 0)
      + (if s.escrow_completed then (0.2 : ℝ) else 0) := by
    split_ifs <;> norm_num
  exact mul_pos (mul_pos h1 h2) h3

/-- The decomposition of `_validate_score` into its propositional parts. -/
theorem validScore_parts (s : ReputationScore) (h : validScore s = true) :
    1 ≤ s.overall_rating ∧ s.overall_rating ≤ 5 ∧ 0 ≤ s.transaction_amount_sats := by
  unfold validScore at h
  simp only [Bool.and_eq_true, decide_eq_true_iff] at h
  exact ⟨h.1.1.1.1.1.1, h.1.1.1.1.1.2, h.2⟩

/-- The rating-weighted sum over valid scores is nonnegative. -/
theorem weightedSum_nonneg (now : Int) (scores : List ReputationScore)
    (hvalid : ∀ s ∈ scores, validScore s = true) :
    0 ≤ weightedSum now scores := by
  unfold weightedSum
  refine List.sum_nonneg ?_
  intro x hx
  obtain ⟨s, hs, rfl⟩ := List.mem_map.mp hx
  obtain ⟨hr, _, ha⟩ := validScore_parts s (hvalid s hs)
  have h1 : (0 : ℝ) ≤ (s.overall_rating : ℝ) := by exact_mod_cast by omega
  exact mul_nonneg h1 (scoreWeight_pos now s ha).le

/-- The decayed weighted average is nonnegative on valid scores. -/
theorem overallScore_nonneg (now : Int) (scores : List ReputationScore)
    (hvalid : ∀ s ∈ scores, validScore s = true) :
    0 ≤ overallScore now scores := by
  unfold overallScore
  split_ifs with hw
  · exact div_nonneg (weightedSum_nonneg now scores hvalid) hw.le
  · exact le_refl 0

/-- `Σ (i + 1)·cᵢ ≤ n·Σ cᵢ`, the only fact about the enumerated cumulative
sum the Gini bound needs (no sortedness required). -/
theorem giniCumsum_le : ∀ (l : List Nat) (k : Nat),
    giniCumsum (k + 1) l ≤ (k + l.length) * l.sum := by
  intro l
  induction l with
  | nil => intro k; simp [giniCumsum]
  | cons c cs ih =>
      intro k
      simp only [giniCumsum, List.length_cons, List.sum_cons]
      calc (k + 1) * c + giniCumsum (k + 1 + 1) cs
          ≤ (k + 1) * c + (k + 1 + cs.length) * cs.sum :=
            Nat.add_le_add_left (ih (k + 1)) _
        _ ≤ (k + 1 + cs.length) * c + (k + 1 + cs.length) * cs.sum := by
            have := Nat.mul_le_mul_right c (by omega : k + 1 ≤ k + 1 + cs.length)
            omega
        _ = (k + (cs.length + 1)) * (c + cs.sum) := by ring

/-- The review-concentration Gini coefficient never exceeds 1. -/
theorem gini_le_one (reviewers : List String) (h : reviewers ≠ []) :
    giniCoefficient reviewers ≤ 1 := by
  unfold giniCoefficient
  rw [if_neg (by simpa using h)]
  have hperm : ((reviewCounts reviewers).mergeSort fun a b => decide (a ≤ b)).Perm
      (reviewCounts reviewers) := List.mergeSort_perm _ _
  set counts := (reviewCounts reviewers).mergeSort fun a b => decide (a ≤ b) with hc
  have hlen : counts.length = (reviewCounts reviewers).length := hperm.length_eq
  have hsum : counts.sum = (reviewCounts reviewers).sum := hperm.sum_eq
  have hlenpos : 0 < counts.length := by
    rw [hlen]
    unfold reviewCounts
    rw [List.length_map, List.length_pos]
    simpa [List.dedup_eq_nil] using h
  have hsumpos : 0 < counts.sum := by
    rw [hsum]
    obtain ⟨x, hx⟩ := List.exists_mem_of_ne_nil reviewers h
    have hxd : x ∈ reviewers.dedup := List.mem_dedup.mpr hx
    have hmem : reviewers.count x ∈ reviewCounts reviewers :=
      List.mem_map.mpr ⟨x, hxd, rfl⟩
    have hcnt : 0 < reviewers.count x := List.count_pos_iff.mpr hx
    have := List.single_le_sum (fun y _ => Nat.zero_le y) _ hmem
    omega
  have hcum : giniCumsum 1 counts ≤ counts.length * counts.sum := by
    have := giniCumsum_le counts 0
    simpa using this
  have hn : (0 : ℝ) < (counts.length : ℝ) := by exact_mod_cast hlenpos
  have hT : (0 : ℝ) < (counts.sum : ℝ) := by exact_mod_cast hsumpos
  have hC : (giniCumsum 1 counts : ℝ) ≤ (counts.length : ℝ) * (counts.sum : ℝ) := by
    exact_mod_cast hcum
  have h1 : 2 * (giniCumsum 1 counts : ℝ) / ((counts.length : ℝ) * (counts.sum : ℝ)) ≤ 2 := by
    rw [div_le_iff (by positivity)]
    linarith
  have h2 : 1 ≤ ((counts.length : ℝ) + 1) / (counts.length : ℝ) := by
    rw [le_div_iff hn]
    linarith
  linarith

/-- The factor sum is nonnegative whenever the aggregate's rating, volume
and concentration are in range. -/
theorem trustFactors_nonneg (now : Int) (rep : AggregatedReputation)
    (h1 : 0 ≤ rep.overall_score) (h2 : 0 ≤ rep.total_volume_sats)
    (h3 : rep.review_concentration ≤ 1) : 0 ≤ trustFactors now rep := by
  unfold trustFactors
  have hb : (0 : ℝ) ≤ (rep.overall_score / 5) * 0.4 := by
    have := div_nonneg h1 (by norm_num : (0 : ℝ) ≤ 5)
    linarith
  have hv : (0 : ℝ) ≤ (min 1 ((rep.total_volume_sats : ℝ) / 100000000)) * 0.2 := by
    have hc : (0 : ℝ) ≤ (rep.total_volume_sats : ℝ) := by exact_mod_cast h2
    have := le_min (by norm_num : (0 : ℝ) ≤ 1)
      (div_nonneg hc (by norm_num : (0 : ℝ) ≤ 100000000))
    linarith
  have hr : (0 : ℝ) ≤ (if 0 < rep.total_transactions then
      ((rep.verified_purchases : ℝ) + (rep.completed_escrows : ℝ))
        / (2 * (rep.total_transactions : ℝ))
    else 0) * 0.2 := by
    split_ifs with ht
    · have := div_nonneg
        (add_nonneg (Nat.cast_nonneg rep.verified_purchases)
          (Nat.cast_nonneg rep.completed_escrows))
        (by positivity : (0 : ℝ) ≤ 2 * (rep.total_transactions : ℝ))
      linarith
    · norm_num
  have hdiv : (0 : ℝ) ≤ (1 - rep.review_concentration) * 0.1 := by
    have : (0 : ℝ) ≤ 1 - rep.review_concentration := by linarith
    linarith
  have hrec : (0 : ℝ) ≤ (if 0 < rep.last_transaction then
      max 0.1 (1 - (((now - rep.last_transaction : Int) : ℝ) / (24 * 3600)) / 365)
    else 0.1) * 0.1 := by
    split_ifs with ht
    · have : (0.1 : ℝ) ≤ max 0.1 (1 - (((now - rep.last_transaction : Int) : ℝ) / (24 * 3600)) / 365) :=
        le_max_left _ _
      linarith
    · norm_num
  linarith

/-- C9: for every history of validly added reputation scores, the trust
score of every pubkey lies in `[0, 1]`, and a pubkey with no history
scores 0. -/
theorem get_trust_score_bounds (sys : ReputationSystem)
    (hvalid : ∀ s ∈ sys.scores, validScore s = true) (now : Int) (pk : String) :
    0 ≤ get_trust_score now sys pk ∧ get_trust_score now sys pk ≤ 1
    ∧ (scoresFor sys pk = [] → get_trust_score now sys pk = 0) := by
  unfold get_trust_score
  by_cases hemp : (scoresFor sys pk).isEmpty
  · rw [if_pos hemp]
    norm_num
  · rw [if_neg hemp]
    have hne : scoresFor sys pk ≠ [] := by
      intro h
      rw [h] at hemp
      exact hemp rfl
    have hvalid' : ∀ s ∈ scoresFor sys pk, validScore s = true := fun s hs =>
      hvalid s (List.mem_of_mem_filter hs)
    have h1 : 0 ≤ (updateAggregated now pk (scoresFor sys pk)).overall_score :=
      overallScore_nonneg now _ hvalid'
    have h2 : 0 ≤ (updateAggregated now pk (scoresFor sys pk)).total_volume_sats := by
      show (0 : Int) ≤ ((scoresFor sys pk).map (·.transaction_amount_sats)).sum
      refine List.sum_nonneg ?_
      intro x hx
      obtain ⟨s, hs, rfl⟩ := List.mem_map.mp hx
      exact (validScore_parts s (hvalid' s hs)).2.2
    have h3 : (updateAggregated now pk (scoresFor sys pk)).review_concentration ≤ 1 := by
      show giniCoefficient ((scoresFor sys pk).map (·.reviewer_pubkey)) ≤ 1
      refine gini_le_one _ ?_
      simpa using hne
    have hnn := trustFactors_nonneg now _ h1 h2 h3
    refine ⟨le_min (by norm_num) hnn, min_le_left _ _, fun h => absurd (by simp [h]) hemp⟩

/-- C9 witness: the empty (trivially valid) history gives a trust score of
0 for any pubkey, inside the bounds. -/
theorem get_trust_score_bounds_witness :
    0 ≤ get_trust_score 0 ⟨[]⟩ "pk" ∧ get_trust_score 0 ⟨[]⟩ "pk" ≤ 1
    ∧ (scoresFor ⟨[]⟩ "pk" = [] → get_trust_score 0 ⟨[]⟩ "pk" = 0) :=
  get_trust_score_bounds ⟨[]⟩ (by simp) 0 "pk"

end Domp
